import Mathlib

/-!
Verification of the rentit rental-classifieds application (`src/app.py`)
against its natural-language specification.

The Flask routes are shallowly embedded as pure Lean functions over an
explicit state: a relational store `DB` (the `User` and `Listing` tables),
an image store `FS` (the set of filenames present in the upload folder),
and a session `Session`.  External library primitives that the application
calls — `werkzeug.security.generate_password_hash` / `check_password_hash`,
`werkzeug.utils.secure_filename`, and the per-request timestamp — are passed
in as explicit function/value parameters, since the spec treats them as
opaque collaborators.  Fallible behaviour (missing form fields, unparsable
prices, raising `os.remove`) is modelled explicitly.
-/

namespace Rentit

/-! ### File-extension allow-list (`allowed_file`, app.py lines 62–65) -/

/-- `ALLOWED_EXTENSIONS = {'png', 'jpg', 'jpeg', 'gif'}` (app.py line 62),
as lists of characters. -/
def ALLOWED_EXTENSIONS : List (List Char) :=
  [['p','n','g'], ['j','p','g'], ['j','p','e','g'], ['g','i','f']]

/-- Lowercase a character sequence, modelling Python `str.lower()` on the
ASCII strings relevant here. -/
def lowerChars (l : List Char) : List Char := l.map Char.toLower

/-- The characters of `filename.rsplit('.', 1)[1]`: the substring after the
last `'.'` of the filename (meaningful only when a dot is present). -/
def extAfterLastDot (l : List Char) : List Char :=
  (l.reverse.takeWhile (fun c => c ≠ '.')).reverse

/-- `allowed_file(filename)` (app.py lines 64–65):
`'.' in filename and filename.rsplit('.', 1)[1].lower() in ALLOWED_EXTENSIONS`. -/
def allowed_file (filename : String) : Bool :=
  filename.data.contains '.' &&
    ALLOWED_EXTENSIONS.contains (lowerChars (extAfterLastDot filename.data))

/-! ### Python `float()` on form strings

`rent_out` and `edit_ad` call `float(price)` on the submitted price string.
We model the decimal fragment of Python's `float` parser: an optional sign
followed by digits with an optional fractional part (the exotic inputs —
exponents, `inf`, `nan`, surrounding whitespace, underscores — play no role
in the claims).  The result is an exact rational. -/

/-- Numeric value of a digit string; `none` when any character is a
non-digit.  The empty string maps to `some 0` (callers rule the empty
relevant cases out separately, matching CPython's grammar). -/
def digitsVal : List Char → Option Nat
  | [] => some 0
  | c :: cs =>
    if c.isDigit then
      (digitsVal cs).map (fun n => (c.toNat - 48) * 10 ^ cs.length + n)
    else none

/-- Unsigned decimal literal: `digits`, `digits.digits`, `digits.` or
`.digits` (at least one digit overall). -/
def parseUnsigned (cs : List Char) : Option ℚ :=
  let ip := cs.takeWhile (fun c => c ≠ '.')
  match cs.dropWhile (fun c => c ≠ '.') with
  | [] =>
    if ip.isEmpty then none
    else (digitsVal ip).map (fun n => (n : ℚ))
  | _ :: frac =>
    if ip.isEmpty && frac.isEmpty then none
    else
      match digitsVal ip, digitsVal frac with
      | some i, some f => some ((i : ℚ) + (f : ℚ) / (10 : ℚ) ^ frac.length)
      | _, _ => none

/-- Model of Python `float(s)` restricted to signed decimal literals:
`some q` when the string parses, `none` when `float` raises `ValueError`. -/
def pyFloat (s : String) : Option ℚ :=
  match s.data with
  | '-' :: rest => (parseUnsigned rest).map (fun q => -q)
  | '+' :: rest => parseUnsigned rest
  | cs => parseUnsigned cs

/-! ### Data model (app.py lines 39–60) -/

/-- A row of the `User` table.  `created_at` and the listings backref are
omitted: no claim mentions them. -/
structure User where
  id : Nat
  username : String
  email : String
  password : String
  phone : Option String
deriving DecidableEq, Repr

/-- A row of the `Listing` table.  `images` is the JSON-encoded ordered list
of filenames, modelled directly as the list; `created_at` is an abstract
timestamp. -/
structure Listing where
  id : Nat
  title : String
  description : String
  price : ℚ
  rental_period : String
  category : String
  location : String
  images : List String
  contact_number : String
  user_id : Nat
  created_at : Nat
  is_featured : Bool
deriving DecidableEq, Repr

/-- The relational store: the two tables.  `query.filter_by(...).first()`
is `List.find?`; `query.get(id)` is `find?` on the primary key. -/
structure DB where
  users : List User
  listings : List Listing
deriving DecidableEq, Repr

/-- The image store: the filenames present in the upload folder. -/
structure FS where
  files : List String
deriving DecidableEq, Repr

/-- The session: `none` when unauthenticated, otherwise the stored
`(user_id, username)` pair set by `login`. -/
abbrev Session : Type := Option (Nat × String)

/-! ### Search (`search`, app.py lines 254–286)

Query parameters are `Option String`: `none` when the parameter is absent
from the URL, `some s` when present with value `s` (an empty submitted value
is `some ""`).  `request.args.get('q', '')` is `q.getD ""`,
`request.args.get('location', 'Gadhinglaj')` is `location.getD "Gadhinglaj"`. -/

/-- Case-insensitive substring test, modelling SQL `ILIKE '%needle%'` for
needles without wildcard metacharacters. -/
def containsSub : List Char → List Char → Bool
  | n, [] => n.isEmpty
  | n, _h :: t => n.isPrefixOf (_h :: t) || containsSub n t

/-- `Listing.title.ilike(f'%{q}%') | Listing.description.ilike(f'%{q}%')`. -/
def matchesQuery (q : String) (l : Listing) : Bool :=
  containsSub (lowerChars q.data) (lowerChars l.title.data) ||
    containsSub (lowerChars q.data) (lowerChars l.description.data)

/-- `if query: listings_query = listings_query.filter(...)` — the free-text
filter, applied only when the string is non-empty (Python truthiness). -/
def qFilter (q : String) (ls : List Listing) : List Listing :=
  if q ≠ "" then ls.filter (matchesQuery q) else ls

/-- `if location and location != 'all': ... filter(Listing.location == location)`. -/
def locationFilter (loc : String) (ls : List Listing) : List Listing :=
  if loc ≠ "" ∧ loc ≠ "all" then ls.filter (fun l => l.location = loc) else ls

/-- `if category and category != 'all': ... filter(Listing.category == category)`. -/
def categoryFilter (cat : String) (ls : List Listing) : List Listing :=
  if cat ≠ "" ∧ cat ≠ "all" then ls.filter (fun l => l.category = cat) else ls

/-- The ordering `ORDER BY created_at DESC`: `a` may precede `b` when
`b.created_at ≤ a.created_at`. -/
def createdDesc (a b : Listing) : Prop := b.created_at ≤ a.created_at

instance : DecidableRel createdDesc := fun a b => by
  unfold createdDesc; infer_instance

instance : IsTotal Listing createdDesc :=
  ⟨fun a b => Nat.le_total b.created_at a.created_at⟩

instance : IsTrans Listing createdDesc :=
  ⟨fun _ _ _ hab hbc => Nat.le_trans hbc hab⟩

/-- `order_by(Listing.created_at.desc()).all()`: a stable sort of the
filtered rows by descending creation time. -/
def orderByCreatedDesc (ls : List Listing) : List Listing :=
  ls.insertionSort createdDesc

/-- The `search` route (app.py lines 254–286): compose the three optional
filters over the `Listing` table, then order by creation time descending. -/
def search (q location category : Option String) (db : DB) : List Listing :=
  let qv := q.getD ""
  let loc := location.getD "Gadhinglaj"
  let cat := category.getD ""
  orderByCreatedDesc (categoryFilter cat (locationFilter loc (qFilter qv db.listings)))

/-! ### Image uploads shared by create and edit (app.py 152–159, 315–322)

An uploaded file is modelled by its client-supplied filename.  A
`FileStorage` with an empty filename is falsy in Python, and an empty
filename contains no dot, so the guard `if image and allowed_file(...)` is
exactly a filter by `allowed_file`.  Each accepted file is stored under
`timestamp + secure_filename(name)`; the werkzeug `secure_filename`
sanitiser and the wall-clock timestamp are opaque parameters. -/

/-- The stored filenames of the accepted uploads, in upload order. -/
def acceptedNames (secure : String → String) (stamp : String)
    (files : List String) : List String :=
  (files.filter allowed_file).map (fun f => stamp ++ secure f)

/-! ### Create (`rent_out` POST, app.py lines 130–184) -/

/-- The POST form of `rent_out`/`edit_ad`: each field is `none` when absent
from the request, `some s` when submitted with value `s`. -/
structure ListingForm where
  title : Option String
  description : Option String
  category : Option String
  price : Option String
  rental_period : Option String
  location : Option String
  contact_number : Option String
deriving DecidableEq, Repr

/-- Python truthiness of a form value: `request.form.get` yields `None`
(absent) or a string, and `not all([...])` rejects `None` and `''`. -/
def present (v : Option String) : Bool := v.getD "" ≠ ""

/-- `all([title, description, category, price, rental_period, contact_number])`. -/
def requiredPresent (f : ListingForm) : Bool :=
  present f.title && present f.description && present f.category &&
    present f.price && present f.rental_period && present f.contact_number

/-- Outcome of the `rent_out` POST handler. -/
inductive CreateResult
  | loginRedirect
  | validationError
  | created (l : Listing)
  | createError
deriving DecidableEq, Repr

/-- The row `rent_out` inserts on success (`Listing(...)`, app.py lines
162–172): the submitted field values, the accepted image filenames, the
session's user id, and the column default `is_featured = False`. -/
def newListing (form : ListingForm) (uploaded : List String)
    (uid newId now : Nat) (p : ℚ) : Listing :=
  { id := newId
    title := form.title.getD ""
    description := form.description.getD ""
    price := p
    rental_period := form.rental_period.getD ""
    category := form.category.getD ""
    location := form.location.getD "Gadhinglaj"
    images := uploaded
    contact_number := form.contact_number.getD ""
    user_id := uid
    created_at := now
    is_featured := false }

/-- The `rent_out` POST handler (app.py lines 130–184).  Field validation
happens first; accepted images are saved to the image store **before** the
`try` block that parses the price and inserts the row, so a `float`
failure (`createError`) leaves the saved files behind. -/
def rent_out (secure : String → String) (stamp : String) (sess : Session)
    (form : ListingForm) (files : List String) (newId now : Nat)
    (db : DB) (fs : FS) : CreateResult × DB × FS :=
  match sess with
  | none => (.loginRedirect, db, fs)
  | some (uid, _) =>
    if requiredPresent form then
      let uploaded := acceptedNames secure stamp files
      let fs' : FS := ⟨fs.files ++ uploaded⟩
      match pyFloat (form.price.getD "") with
      | none => (.createError, db, fs')
      | some p =>
        let l := newListing form uploaded uid newId now p
        (.created l, ⟨db.users, db.listings ++ [l]⟩, fs')
    else (.validationError, db, fs)

/-! ### Edit (`edit_ad` POST, app.py lines 288–347) -/

/-- Outcome of the `edit_ad` POST handler. -/
inductive EditResult
  | loginRedirect
  | notFound
  | forbidden
  | updated
  | updateError
deriving DecidableEq, Repr

/-- Replace the first element satisfying `p` — the SQLAlchemy row object
returned by `query.get` is mutated in place and committed. -/
def replaceFirst (p : Listing → Bool) (l' : Listing) : List Listing → List Listing
  | [] => []
  | x :: xs => if p x then l' :: xs else x :: replaceFirst p l' xs

/-- The row `edit_ad` commits on success: every mutable field overwritten
with the submitted value; new accepted images appended to the existing
sequence (`if uploaded_images:` merge, app.py lines 324–328). -/
def editedListing (l : Listing) (t d c : String) (p : ℚ) (rp loc cn : String)
    (uploaded : List String) : Listing :=
  { l with
    title := t, description := d, category := c, price := p,
    rental_period := rp, location := loc, contact_number := cn,
    images := if uploaded.isEmpty then l.images else l.images ++ uploaded }

/-- The `edit_ad` POST handler (app.py lines 288–347).  Session and
ownership are checked before any mutation.  Inside the `try`:
`float(request.form.get('price'))` raises (→ `updateError`, nothing
changed) when the price is absent or unparsable; the image files are saved
next; finally the commit fails (→ `updateError`, with the image files
already saved) when a required column would be set to `None`
(`nullable=False`). -/
def edit_ad (secure : String → String) (stamp : String) (sess : Session)
    (adId : Nat) (form : ListingForm) (files : List String)
    (db : DB) (fs : FS) : EditResult × DB × FS :=
  match sess with
  | none => (.loginRedirect, db, fs)
  | some (uid, _) =>
    match db.listings.find? (fun l => l.id == adId) with
    | none => (.notFound, db, fs)
    | some l =>
      if l.user_id ≠ uid then (.forbidden, db, fs)
      else
        match form.price with
        | none => (.updateError, db, fs)
        | some ps =>
          match pyFloat ps with
          | none => (.updateError, db, fs)
          | some p =>
            let uploaded := acceptedNames secure stamp files
            let fs' : FS := ⟨fs.files ++ uploaded⟩
            match form.title, form.description, form.category,
                form.rental_period, form.contact_number with
            | some t, some d, some c, some rp, some cn =>
              let l' := editedListing l t d c p rp
                (form.location.getD "Gadhinglaj") cn uploaded
              (.updated, ⟨db.users,
                replaceFirst (fun x => x.id == adId) l' db.listings⟩, fs')
            | _, _, _, _, _ => (.updateError, db, fs')

/-! ### Delete (`delete_ad`, app.py lines 349–378) -/

/-- Outcome of the `delete_ad` handler. -/
inductive DeleteResult
  | loginRedirect
  | notFound
  | forbidden
  | deleted
  | deleteError
deriving DecidableEq, Repr

/-- The image-removal loop (app.py lines 364–369): a file that is not
present is skipped (`os.path.exists` guard); removing a present file calls
`os.remove`, whose failure is modelled by the oracle `removeFails` and
raises out of the loop.  Returns whether the loop completed, together with
the image store after the removals that did happen. -/
def removeImages (removeFails : String → Bool) :
    List String → FS → Bool × FS
  | [], fs => (true, fs)
  | f :: rest, fs =>
    if fs.files.contains f then
      if removeFails f then (false, fs)
      else removeImages removeFails rest ⟨fs.files.erase f⟩
    else removeImages removeFails rest fs

/-- The `delete_ad` handler (app.py lines 349–378).  Session and ownership
are checked first; then, inside the `try`, every referenced image file is
removed and the row deleted.  An exception from `os.remove` is caught by
the surrounding `except` (→ `deleteError`): the row is **not** deleted and
files removed before the failure stay removed. -/
def delete_ad (removeFails : String → Bool) (sess : Session) (adId : Nat)
    (db : DB) (fs : FS) : DeleteResult × DB × FS :=
  match sess with
  | none => (.loginRedirect, db, fs)
  | some (uid, _) =>
    match db.listings.find? (fun l => l.id == adId) with
    | none => (.notFound, db, fs)
    | some l =>
      if l.user_id ≠ uid then (.forbidden, db, fs)
      else
        match removeImages removeFails l.images fs with
        | (true, fs') =>
          (.deleted, ⟨db.users, db.listings.eraseP (fun x => x.id == adId)⟩, fs')
        | (false, fs') => (.deleteError, db, fs')

/-! ### Registration (`register` POST, app.py lines 208–246) -/

/-- Outcome of the `register` POST handler.  `emailConflict` and
`usernameConflict` are both `Conflict`s; they are distinguished here only
to express which check fires first. -/
inductive RegisterResult
  | mismatch
  | emailConflict
  | usernameConflict
  | registered (u : User)
  | registerError
deriving DecidableEq, Repr

/-- The `register` POST handler (app.py lines 208–246).  Fields are
`Option String` (`None` when absent).  The password-mismatch check runs
first, then the email-uniqueness lookup, then the username lookup; on
success the row stores `generate_password_hash(password)` — the opaque
hash primitive `genHash` — and the session is left untouched (no
auto-login).  A missing username/email/password reaches the `except` via
`generate_password_hash(None)` or the `NOT NULL` constraint
(→ `registerError`). -/
def register (genHash : String → String)
    (username email password confirm_password phone : Option String)
    (newId : Nat) (db : DB) (sess : Session) :
    RegisterResult × DB × Session :=
  if password ≠ confirm_password then (.mismatch, db, sess)
  else if (db.users.find? (fun u => some u.email == email)).isSome then
    (.emailConflict, db, sess)
  else if (db.users.find? (fun u => some u.username == username)).isSome then
    (.usernameConflict, db, sess)
  else
    match username, email, password with
    | some un, some em, some pw =>
      let u : User := ⟨newId, un, em, genHash pw, phone⟩
      (.registered u, ⟨db.users ++ [u], db.listings⟩, sess)
    | _, _, _ => (.registerError, db, sess)

/-! ### Login (`login` POST, app.py lines 186–206) -/

/-- Outcome of the `login` POST handler. -/
inductive LoginResult
  | invalidCredentials
  | success
deriving DecidableEq, Repr

/-- The `login` POST handler (app.py lines 186–206).  Looks the user up by
email; `if user and check_password_hash(user.password, password)` merges
the user-not-found and hash-mismatch cases into the single
`'Invalid email or password'` outcome with the session untouched.  The
opaque hash verifier `checkHash` models `check_password_hash`. -/
def login (checkHash : String → String → Bool) (email password : String)
    (db : DB) (sess : Session) : LoginResult × Session :=
  match db.users.find? (fun u => u.email == email) with
  | none => (.invalidCredentials, sess)
  | some u =>
    if checkHash u.password password then (.success, some (u.id, u.username))
    else (.invalidCredentials, sess)

/-! ### Concrete instances for counterexamples and witnesses -/

/-- A listing located outside the default city. -/
def puneListing : Listing :=
  { id := 1, title := "Sofa", description := "three seats", price := 100,
    rental_period := "month", category := "furniture", location := "Pune",
    images := [], contact_number := "123", user_id := 1, created_at := 5,
    is_featured := false }

/-- Store holding only `puneListing`. -/
def puneDB : DB := ⟨[], [puneListing]⟩

/-- A fully filled create/edit form except that the price field does not
parse as a number. -/
def badPriceForm : ListingForm :=
  { title := some "Sofa", description := some "three seats",
    category := some "furniture", price := some "abc",
    rental_period := some "month", location := some "Pune",
    contact_number := some "123" }

/-- A fully filled create form whose price parses to a negative number. -/
def negPriceForm : ListingForm :=
  { title := some "Sofa", description := some "three seats",
    category := some "furniture", price := some "-5",
    rental_period := some "month", location := some "Pune",
    contact_number := some "123" }

/-- A listing owned by user 1 that references one stored image. -/
def imgListing : Listing :=
  { id := 1, title := "Bike", description := "city bike", price := 50,
    rental_period := "day", category := "vehicles", location := "Gadhinglaj",
    images := ["a.png"], contact_number := "123", user_id := 1,
    created_at := 3, is_featured := false }

/-- Store holding only `imgListing`. -/
def imgDB : DB := ⟨[], [imgListing]⟩

/-- A concrete model of `generate_password_hash`. -/
def hashFn (s : String) : String := "h:" ++ s

/-- A concrete model of `check_password_hash` matching `hashFn`. -/
def chkFn (h p : String) : Bool := h == "h:" ++ p

/-- A registered user whose stored credential is `hashFn "password"`. -/
def demoUser : User := ⟨1, "demo", "demo@example.com", hashFn "password", none⟩

/-- Store holding only `demoUser`. -/
def demoDB : DB := ⟨[demoUser], []⟩

/-- A fully filled edit form with a parsable price. -/
def editForm : ListingForm :=
  { title := some "City bike", description := some "good brakes",
    category := some "vehicles", price := some "75",
    rental_period := some "week", location := some "Pune",
    contact_number := some "999" }

/-- The row persisted by the `create_negative_price_persists_counterexample`
run: price −5. -/
def negListing : Listing :=
  { id := 2, title := "Sofa", description := "three seats", price := -5,
    rental_period := "month", category := "furniture", location := "Pune",
    images := [], contact_number := "123", user_id := 1, created_at := 9,
    is_featured := false }

/-! ## Theorems -/

/-! ### Filter helper lemmas -/

theorem qFilter_empty (ls : List Listing) : qFilter "" ls = ls := by
  simp [qFilter]

theorem locationFilter_all (ls : List Listing) : locationFilter "all" ls = ls := by
  simp [locationFilter]

theorem locationFilter_empty (ls : List Listing) : locationFilter "" ls = ls := by
  simp [locationFilter]

theorem categoryFilter_empty (ls : List Listing) : categoryFilter "" ls = ls := by
  simp [categoryFilter]

theorem categoryFilter_all (ls : List Listing) : categoryFilter "all" ls = ls := by
  simp [categoryFilter]

/-- C1 (counterexample): with one listing located in "Pune", the search
with no filters supplied (empty `q`, absent `location`, absent `category`)
returns the empty list — not every listing — because the absent location
parameter defaults to "Gadhinglaj" and is applied as a filter; and
`location=all` is therefore not equivalent to omitting the location
parameter. -/
theorem search_no_filter_counterexample :
    puneDB.listings = [puneListing] ∧
    search (some "") none none puneDB = [] ∧
    search (some "") (some "all") none puneDB ≠ search (some "") none none puneDB :=
  ⟨rfl, rfl, by decide⟩

/-- C1 (amended): supplying `location=all` is equivalent to supplying an
empty location value (both disable the location filter) — not to omitting
the parameter; and a search with empty free-text query, `location=all` and
no category returns every listing, ordered by creation time descending. -/
theorem search_location_all_returns_all_sorted :
    (∀ q cat db, search q (some "all") cat db = search q (some "") cat db) ∧
    (∀ db : DB, (search (some "") (some "all") none db).Perm db.listings ∧
      List.Sorted createdDesc (search (some "") (some "all") none db)) := by
  constructor
  · intro q cat db
    simp [search, locationFilter_all, locationFilter_empty]
  · intro db
    constructor
    · simp [search, locationFilter_all, qFilter_empty, categoryFilter_empty,
        orderByCreatedDesc]
      exact List.perm_insertionSort _ _
    · simp [search, orderByCreatedDesc]
      exact List.sorted_insertionSort _ _

/-- C9: an empty-string query parameter disables the corresponding filter
(location, category, and free-text query alike), exactly as the sentinel
"all" does for location/category; but an entirely absent location
parameter defaults to "Gadhinglaj" and is applied as a filter, so absent
and empty location differ (witnessed concretely on `puneDB`). -/
theorem search_empty_disables_absent_defaults :
    (∀ q cat db, search q (some "") cat db =
      orderByCreatedDesc (categoryFilter (cat.getD "")
        (qFilter (q.getD "") db.listings))) ∧
    (∀ q loc db, search q loc (some "") db =
      orderByCreatedDesc (locationFilter (loc.getD "Gadhinglaj")
        (qFilter (q.getD "") db.listings))) ∧
    (∀ loc cat db, search (some "") loc cat db =
      orderByCreatedDesc (categoryFilter (cat.getD "")
        (locationFilter (loc.getD "Gadhinglaj") db.listings))) ∧
    (∀ q cat db, search q none cat db = search q (some "Gadhinglaj") cat db) ∧
    search (some "") none none puneDB ≠ search (some "") (some "") none puneDB := by
  refine ⟨?_, ?_, ?_, ?_, by decide⟩
  · intro q cat db
    simp [search, locationFilter_empty]
  · intro q loc db
    simp [search, categoryFilter_empty]
  · intro loc cat db
    simp [search, qFilter_empty]
  · intro q cat db
    rfl

/-! ### File-extension acceptance (C10) -/

theorem takeWhile_append_of_all {α} {p : α → Bool} {xs ys : List α}
    (h : ∀ x ∈ xs, p x = true) :
    (xs ++ ys).takeWhile p = xs ++ ys.takeWhile p := by
  induction xs with
  | nil => rfl
  | cons x xs ih =>
    have hx : p x = true := h x (List.mem_cons_self x xs)
    simp [List.takeWhile_cons, hx,
      ih (fun a ha => h a (List.mem_cons_of_mem x ha))]

/-- When the part after the shown dot is dot-free, it is exactly the
`rsplit('.', 1)[1]` suffix: the shown dot is the last dot. -/
theorem extAfterLastDot_append {a b : List Char} (hb : '.' ∉ b) :
    extAfterLastDot (a ++ '.' :: b) = b := by
  unfold extAfterLastDot
  have hall : ∀ x ∈ b.reverse, (fun c => decide (c ≠ '.')) x = true := by
    intro x hx
    simp only [List.mem_reverse] at hx
    simp only [decide_eq_true_eq]
    intro he; exact hb (he ▸ hx)
  have h1 : (a ++ '.' :: b).reverse = b.reverse ++ '.' :: a.reverse := by
    simp
  rw [h1, takeWhile_append_of_all hall]
  simp [List.takeWhile_cons]

/-- C10: an uploaded filename passes `allowed_file` exactly when it
contains a dot and the substring after its last dot, lowercased, is one of
png/jpg/jpeg/gif: for any filename `a ++ "." ++ b` with dot-free `b`,
acceptance is membership of the lowercased `b` in the allow-list; a
dot-free filename is always rejected; uppercase "PHOTO.JPG" is accepted
and dotless "photo" rejected. -/
theorem allowed_file_spec :
    (∀ a b : String, '.' ∉ b.data →
      (allowed_file (a ++ "." ++ b) = true ↔
        lowerChars b.data ∈ ALLOWED_EXTENSIONS)) ∧
    (∀ f : String, '.' ∉ f.data → allowed_file f = false) ∧
    allowed_file "PHOTO.JPG" = true ∧ allowed_file "photo" = false := by
  refine ⟨?_, ?_, by decide, by decide⟩
  · intro a b hb
    have hd : (a ++ "." ++ b).data = a.data ++ '.' :: b.data := by
      simp [String.data_append]
    rw [allowed_file, hd, extAfterLastDot_append hb]
    simp [List.elem_iff]
  · intro f hf
    rw [allowed_file]
    have hc : f.data.contains '.' = false := by
      simp [hf]
    rw [hc, Bool.false_and]

/-- C10 (witness): the characterization applied at the concrete filename
"PHOTO.JPG". -/
theorem allowed_file_spec_witness :
    ('.' ∉ "JPG".data) ∧
    (allowed_file ("PHOTO" ++ "." ++ "JPG") = true ↔
      lowerChars "JPG".data ∈ ALLOWED_EXTENSIONS) :=
  ⟨by decide, allowed_file_spec.1 "PHOTO" "JPG" (by decide)⟩

/-! ### Create validation (C2, C3) -/

/-- C2 (amended): a create request with a missing/empty required field
fails validation with no mutation at all — no row and no stored image; a
create request whose fields are present but whose price does not parse
persists no row, but the accepted uploaded images have already been saved
to the image store when the failure occurs. -/
theorem create_validation_no_row
    (secure : String → String) (stamp : String) (uid : Nat) (un : String)
    (form : ListingForm) (files : List String) (newId now : Nat)
    (db : DB) (fs : FS) :
    (requiredPresent form = false →
      rent_out secure stamp (some (uid, un)) form files newId now db fs =
        (.validationError, db, fs)) ∧
    (requiredPresent form = true → pyFloat (form.price.getD "") = none →
      rent_out secure stamp (some (uid, un)) form files newId now db fs =
        (.createError, db, ⟨fs.files ++ acceptedNames secure stamp files⟩)) := by
  constructor
  · intro h
    simp [rent_out, h]
  · intro h hp
    simp [rent_out, h, hp]

/-- C2 (witness): the amended statement applied to a filled form whose
price is "abc", with one accepted upload. -/
theorem create_validation_no_row_witness :
    requiredPresent badPriceForm = true ∧ pyFloat "abc" = none ∧
    rent_out id "t_" (some (1, "u")) badPriceForm ["photo.png"] 2 9 puneDB ⟨[]⟩ =
      (.createError, puneDB,
        ⟨([] : List String) ++ acceptedNames id "t_" ["photo.png"]⟩) :=
  ⟨rfl, rfl,
    (create_validation_no_row id "t_" 1 "u" badPriceForm ["photo.png"]
      2 9 puneDB ⟨[]⟩).2 rfl rfl⟩

/-- C2 (counterexample): a create request with every required field filled
but price "abc" and one accepted upload "photo.png" persists no row, yet
stores the image file — contradicting "no uploaded image file is stored"
for the price-non-numeric case. -/
theorem create_bad_price_stores_image_counterexample :
    rent_out id "t_" (some (1, "u")) badPriceForm ["photo.png"] 2 9 puneDB ⟨[]⟩ =
      (.createError, puneDB, ⟨["t_photo.png"]⟩) ∧
    (⟨["t_photo.png"]⟩ : FS) ≠ (⟨[]⟩ : FS) := by
  constructor
  · rfl
  · decide

/-- C3 (counterexample): a create request whose price "-5" parses to the
negative number −5 succeeds and persists the row with price −5 —
contradicting "a Create whose price parses to a negative number fails with
a validation error and persists no row". -/
theorem create_negative_price_persists_counterexample :
    rent_out id "" (some (1, "u")) negPriceForm [] 2 9 ⟨[], []⟩ ⟨[]⟩ =
      (.created negListing, ⟨[], [negListing]⟩, ⟨[]⟩) ∧
    negListing.price < 0 := by
  constructor
  · rfl
  · decide

/-- C3 (amended): for an authenticated create with all required fields
present, a row is persisted iff the price parses as a float — any float,
the sign is never checked: on parse failure no row is added, and on parse
success (including negative values) the new row carries exactly the parsed
price. -/
theorem create_persists_iff_price_parses
    (secure : String → String) (stamp : String) (uid : Nat) (un : String)
    (form : ListingForm) (files : List String) (newId now : Nat)
    (db : DB) (fs : FS) :
    (pyFloat (form.price.getD "") = none → requiredPresent form = true →
      rent_out secure stamp (some (uid, un)) form files newId now db fs =
        (.createError, db, ⟨fs.files ++ acceptedNames secure stamp files⟩)) ∧
    (∀ p : ℚ, pyFloat (form.price.getD "") = some p → requiredPresent form = true →
      rent_out secure stamp (some (uid, un)) form files newId now db fs =
        (.created (newListing form (acceptedNames secure stamp files) uid newId now p),
          ⟨db.users, db.listings ++
            [newListing form (acceptedNames secure stamp files) uid newId now p]⟩,
          ⟨fs.files ++ acceptedNames secure stamp files⟩) ∧
      (newListing form (acceptedNames secure stamp files) uid newId now p).price = p) := by
  constructor
  · intro hp h
    simp [rent_out, h, hp]
  · intro p hp h
    refine ⟨?_, rfl⟩
    simp [rent_out, h, hp]

/-- C3 (witness): the amended statement applied to the negative-price form
(price "-5", parsed value −5): the row is created with price −5. -/
theorem create_persists_iff_price_parses_witness :
    pyFloat (negPriceForm.price.getD "") = some (-5) ∧
    requiredPresent negPriceForm = true ∧
    (rent_out id "" (some (1, "u")) negPriceForm [] 2 9 ⟨[], []⟩ ⟨[]⟩ =
      (.created (newListing negPriceForm (acceptedNames id "" []) 1 2 9 (-5)),
        ⟨[], ([] : List Listing) ++
          [newListing negPriceForm (acceptedNames id "" []) 1 2 9 (-5)]⟩,
        ⟨([] : List String) ++ acceptedNames id "" []⟩) ∧
      (newListing negPriceForm (acceptedNames id "" []) 1 2 9 (-5)).price = -5) :=
  ⟨by decide, rfl,
    (create_persists_iff_price_parses id "" 1 "u" negPriceForm [] 2 9 ⟨[], []⟩ ⟨[]⟩).2
      (-5) (by decide) rfl⟩

/-! ### Ownership protection (C5) -/

/-- C5: when the authenticated requester is not the owner of the listing,
both `edit_ad` and `delete_ad` fail with `Forbidden` and leave the entire
store — every listing row, its image sequence included, and every image
file — exactly as before. -/
theorem non_owner_edit_delete_forbidden
    (secure : String → String) (stamp : String) (removeFails : String → Bool)
    (uid : Nat) (un : String) (adId : Nat) (form : ListingForm)
    (files : List String) (db : DB) (fs : FS) (l : Listing)
    (hfind : db.listings.find? (fun x => x.id == adId) = some l)
    (hown : l.user_id ≠ uid) :
    edit_ad secure stamp (some (uid, un)) adId form files db fs =
      (.forbidden, db, fs) ∧
    delete_ad removeFails (some (uid, un)) adId db fs = (.forbidden, db, fs) := by
  constructor
  · simp [edit_ad, hfind, hown]
  · simp [delete_ad, hfind, hown]

/-- C5 (witness): user 2 can neither edit nor delete user 1's listing. -/
theorem non_owner_edit_delete_forbidden_witness :
    imgDB.listings.find? (fun x => x.id == 1) = some imgListing ∧
    imgListing.user_id ≠ 2 ∧
    (edit_ad id "" (some (2, "v")) 1 badPriceForm [] imgDB ⟨["a.png"]⟩ =
        (.forbidden, imgDB, ⟨["a.png"]⟩) ∧
      delete_ad (fun _ => false) (some (2, "v")) 1 imgDB ⟨["a.png"]⟩ =
        (.forbidden, imgDB, ⟨["a.png"]⟩)) :=
  ⟨rfl, by decide,
    non_owner_edit_delete_forbidden id "" (fun _ => false) 2 "v" 1 badPriceForm
      [] imgDB ⟨["a.png"]⟩ imgListing rfl (by decide)⟩

/-! ### Successful edit (C6) -/

theorem editedListing_images (l : Listing) (t d c : String) (p : ℚ)
    (rp loc cn : String) (up : List String) :
    (editedListing l t d c p rp loc cn up).images = l.images ++ up := by
  cases up <;> simp [editedListing]

theorem find?_replaceFirst {p : Listing → Bool} {l' : Listing}
    (hp' : p l' = true) {xs : List Listing} {l : Listing}
    (h : xs.find? p = some l) :
    (replaceFirst p l' xs).find? p = some l' := by
  induction xs with
  | nil => simp at h
  | cons x xs ih =>
    cases hx : p x with
    | true => simp [replaceFirst, hx, List.find?_cons, hp']
    | false =>
      simp only [List.find?_cons, hx] at h
      simp [replaceFirst, hx, List.find?_cons, ih h]

/-- C6: a successful owner edit commits the row with every mutable
text/numeric field overwritten by the submitted value, and with the newly
accepted upload names appended after the pre-existing image sequence —
the old entries stay, in order, as the prefix; the row found under the
listing's id afterwards is exactly that updated row. -/
theorem edit_success_overwrites_and_appends
    (secure : String → String) (stamp : String) (uid : Nat) (un : String)
    (adId : Nat) (form : ListingForm) (files : List String)
    (db : DB) (fs : FS) (l : Listing) (t d c ps rp cn : String) (p : ℚ)
    (hfind : db.listings.find? (fun x => x.id == adId) = some l)
    (hown : l.user_id = uid)
    (ht : form.title = some t) (hd : form.description = some d)
    (hc : form.category = some c) (hps : form.price = some ps)
    (hp : pyFloat ps = some p) (hrp : form.rental_period = some rp)
    (hcn : form.contact_number = some cn) :
    edit_ad secure stamp (some (uid, un)) adId form files db fs =
      (.updated,
        ⟨db.users, replaceFirst (fun x => x.id == adId)
          (editedListing l t d c p rp (form.location.getD "Gadhinglaj") cn
            (acceptedNames secure stamp files)) db.listings⟩,
        ⟨fs.files ++ acceptedNames secure stamp files⟩) ∧
    (editedListing l t d c p rp (form.location.getD "Gadhinglaj") cn
        (acceptedNames secure stamp files)).title = t ∧
    (editedListing l t d c p rp (form.location.getD "Gadhinglaj") cn
        (acceptedNames secure stamp files)).description = d ∧
    (editedListing l t d c p rp (form.location.getD "Gadhinglaj") cn
        (acceptedNames secure stamp files)).category = c ∧
    (editedListing l t d c p rp (form.location.getD "Gadhinglaj") cn
        (acceptedNames secure stamp files)).price = p ∧
    (editedListing l t d c p rp (form.location.getD "Gadhinglaj") cn
        (acceptedNames secure stamp files)).rental_period = rp ∧
    (editedListing l t d c p rp (form.location.getD "Gadhinglaj") cn
        (acceptedNames secure stamp files)).location = form.location.getD "Gadhinglaj" ∧
    (editedListing l t d c p rp (form.location.getD "Gadhinglaj") cn
        (acceptedNames secure stamp files)).contact_number = cn ∧
    (editedListing l t d c p rp (form.location.getD "Gadhinglaj") cn
        (acceptedNames secure stamp files)).images =
      l.images ++ acceptedNames secure stamp files ∧
    (replaceFirst (fun x => x.id == adId)
        (editedListing l t d c p rp (form.location.getD "Gadhinglaj") cn
          (acceptedNames secure stamp files)) db.listings).find?
      (fun x => x.id == adId) =
      some (editedListing l t d c p rp (form.location.getD "Gadhinglaj") cn
        (acceptedNames secure stamp files)) := by
  have hid : ((editedListing l t d c p rp (form.location.getD "Gadhinglaj") cn
      (acceptedNames secure stamp files)).id == adId) = true := by
    have := List.find?_some hfind
    simpa [editedListing] using this
  refine ⟨?_, rfl, rfl, rfl, rfl, rfl, rfl, rfl,
    editedListing_images l t d c p rp (form.location.getD "Gadhinglaj") cn
      (acceptedNames secure stamp files),
    find?_replaceFirst hid hfind⟩
  simp [edit_ad, hfind, hown, ht, hd, hc, hps, hp, hrp, hcn]

/-- C6 (witness): an owner edit of the one-image listing with one new
accepted upload: all fields replaced, image sequence becomes
`["a.png", "t_new.jpg"]` — the old entry first. -/
theorem edit_success_witness :
    imgDB.listings.find? (fun x => x.id == 1) = some imgListing ∧
    imgListing.user_id = 1 ∧ pyFloat "75" = some 75 ∧
    edit_ad id "t_" (some (1, "u")) 1 editForm ["new.jpg"] imgDB ⟨["a.png"]⟩ =
      (.updated,
        ⟨imgDB.users, replaceFirst (fun x => x.id == 1)
          (editedListing imgListing "City bike" "good brakes" "vehicles" 75 "week"
            (editForm.location.getD "Gadhinglaj") "999"
            (acceptedNames id "t_" ["new.jpg"])) imgDB.listings⟩,
        ⟨["a.png"] ++ acceptedNames id "t_" ["new.jpg"]⟩) ∧
    (editedListing imgListing "City bike" "good brakes" "vehicles" 75 "week"
        (editForm.location.getD "Gadhinglaj") "999"
        (acceptedNames id "t_" ["new.jpg"])).images = ["a.png", "t_new.jpg"] :=
  ⟨rfl, rfl, by decide,
    ((edit_success_overwrites_and_appends id "t_" 1 "u" 1 editForm ["new.jpg"]
      imgDB ⟨["a.png"]⟩ imgListing "City bike" "good brakes" "vehicles" "75"
      "week" "999" 75 rfl rfl rfl rfl rfl rfl (by decide) rfl rfl).1), by decide⟩

/-! ### Delete (C4) -/

theorem removeImages_fst_true {rf : String → Bool} :
    ∀ (imgs : List String) (fs : FS), (∀ f ∈ imgs, rf f = false) →
      (removeImages rf imgs fs).1 = true
  | [], _, _ => rfl
  | f :: rest, fs, h => by
    have hf : rf f = false := h f (List.mem_cons_self f rest)
    have hrest : ∀ g ∈ rest, rf g = false :=
      fun g hg => h g (List.mem_cons_of_mem f hg)
    by_cases hc : f ∈ fs.files
    · simp [removeImages, hc, hf, removeImages_fst_true rest _ hrest]
    · simp [removeImages, hc, removeImages_fst_true rest fs hrest]

theorem removeImages_files_subset {rf : String → Bool} :
    ∀ (imgs : List String) (fs : FS),
      (removeImages rf imgs fs).2.files ⊆ fs.files
  | [], _ => fun _ h => h
  | f :: rest, fs => by
    by_cases hc : f ∈ fs.files
    · by_cases hr : rf f = true
      · simp [removeImages, hc, hr]
      · simp only [Bool.not_eq_true] at hr
        have heq : removeImages rf (f :: rest) fs
            = removeImages rf rest ⟨fs.files.erase f⟩ := by
          simp [removeImages, hc, hr]
        rw [heq]
        exact fun x hx =>
          List.erase_subset _ _ (removeImages_files_subset rest ⟨fs.files.erase f⟩ hx)
    · have heq : removeImages rf (f :: rest) fs = removeImages rf rest fs := by
        simp [removeImages, hc]
      rw [heq]
      exact removeImages_files_subset rest fs

/-- When no `os.remove` raises, every filename of the sequence is absent
from the image store afterwards (files already missing were skipped). -/
theorem removeImages_not_mem {rf : String → Bool} :
    ∀ (imgs : List String) (fs : FS), fs.files.Nodup →
      (∀ f ∈ imgs, rf f = false) →
      ∀ f ∈ imgs, f ∉ (removeImages rf imgs fs).2.files
  | [], _, _, _ => by simp
  | g :: rest, fs, hnd, h => by
    have hg : rf g = false := h g (List.mem_cons_self g rest)
    have hrest : ∀ f ∈ rest, rf f = false :=
      fun f hf => h f (List.mem_cons_of_mem g hf)
    intro f hf
    by_cases hc : g ∈ fs.files
    · have heq : removeImages rf (g :: rest) fs
          = removeImages rf rest ⟨fs.files.erase g⟩ := by
        simp [removeImages, hc, hg]
      rw [heq]
      rcases List.mem_cons.mp hf with hfg | hfr
      · subst hfg
        intro hmem
        exact (List.Nodup.not_mem_erase hnd)
          (removeImages_files_subset rest ⟨fs.files.erase f⟩ hmem)
      · exact removeImages_not_mem rest ⟨fs.files.erase g⟩ (hnd.erase g) hrest f hfr
    · have heq : removeImages rf (g :: rest) fs = removeImages rf rest fs := by
        simp [removeImages, hc]
      rw [heq]
      rcases List.mem_cons.mp hf with hfg | hfr
      · subst hfg
        intro hmem
        exact hc (removeImages_files_subset rest fs hmem)
      · exact removeImages_not_mem rest fs hnd hrest f hfr

/-- With pairwise-distinct primary keys, no row under the erased id remains. -/
theorem find?_eraseP_nodup (adId : Nat) :
    ∀ (xs : List Listing), (xs.map Listing.id).Nodup →
      (xs.eraseP (fun x => x.id == adId)).find? (fun x => x.id == adId) = none
  | [], _ => rfl
  | x :: xs, hnd => by
    have hnd' : (xs.map Listing.id).Nodup := (List.nodup_cons.mp hnd).2
    by_cases hx : (x.id == adId) = true
    · have hxid : x.id = adId := by simpa using hx
      have hnotin : x.id ∉ xs.map Listing.id := (List.nodup_cons.mp hnd).1
      rw [List.eraseP_cons, hx]
      simp only [cond_true]
      rw [List.find?_eq_none]
      intro y hy
      simp only [beq_iff_eq]
      intro hyid
      exact hnotin (hxid ▸ hyid ▸ List.mem_map_of_mem Listing.id hy)
    · have hxf : (x.id == adId) = false := by simpa using hx
      rw [List.eraseP_cons, hxf]
      simp only [cond_false]
      rw [List.find?_cons, hxf]
      exact find?_eraseP_nodup adId xs hnd'

/-- C4 (amended): an owner delete during which no `os.remove` call raises
(missing files are skipped, not an error) removes every filename of the
listing's image sequence from the image store and removes the row, so a
subsequent lookup of the id yields `NotFound`; but the operation is not
failure-proof — see the counterexample for a raising removal. -/
theorem delete_owner_success
    (removeFails : String → Bool) (uid : Nat) (un : String) (adId : Nat)
    (db : DB) (fs : FS) (l : Listing)
    (hfind : db.listings.find? (fun x => x.id == adId) = some l)
    (hown : l.user_id = uid)
    (hok : ∀ f ∈ l.images, removeFails f = false)
    (hnd : fs.files.Nodup)
    (hids : (db.listings.map Listing.id).Nodup) :
    delete_ad removeFails (some (uid, un)) adId db fs =
      (.deleted, ⟨db.users, db.listings.eraseP (fun x => x.id == adId)⟩,
        (removeImages removeFails l.images fs).2) ∧
    (∀ f ∈ l.images, f ∉ (removeImages removeFails l.images fs).2.files) ∧
    (db.listings.eraseP (fun x => x.id == adId)).find? (fun x => x.id == adId) =
      none := by
  have h1 : (removeImages removeFails l.images fs).1 = true :=
    removeImages_fst_true l.images fs hok
  refine ⟨?_, removeImages_not_mem l.images fs hnd hok,
    find?_eraseP_nodup adId db.listings hids⟩
  rcases hre : removeImages removeFails l.images fs with ⟨ok, fs2⟩
  rw [hre] at h1
  simp only at h1
  subst h1
  simp [delete_ad, hfind, hown, hre]

/-- C4 (witness): the owner deletes the one-image listing with no removal
failure: the row is gone, the image file is gone. -/
theorem delete_owner_success_witness :
    imgDB.listings.find? (fun x => x.id == 1) = some imgListing ∧
    imgListing.user_id = 1 ∧
    (∀ f ∈ imgListing.images, (fun _ => false) f = false) ∧
    (delete_ad (fun _ => false) (some (1, "u")) 1 imgDB ⟨["a.png"]⟩ =
      (.deleted, ⟨imgDB.users, imgDB.listings.eraseP (fun x => x.id == 1)⟩,
        (removeImages (fun _ => false) imgListing.images ⟨["a.png"]⟩).2) ∧
    (∀ f ∈ imgListing.images,
      f ∉ (removeImages (fun _ => false) imgListing.images ⟨["a.png"]⟩).2.files) ∧
    (imgDB.listings.eraseP (fun x => x.id == 1)).find? (fun x => x.id == 1) =
      none) :=
  ⟨rfl, rfl, fun _ _ => rfl,
    delete_owner_success (fun _ => false) 1 "u" 1 imgDB ⟨["a.png"]⟩ imgListing
      rfl rfl (fun _ _ => rfl) (by decide) (by decide)⟩

/-- C4 (counterexample): when `os.remove` of the present image "a.png"
raises, the owner's delete fails with an error notice and the Listing row
is *not* removed — contradicting "the Delete operation does not fail even
when removal of an image file fails". -/
theorem delete_remove_failure_counterexample :
    delete_ad (fun _ => true) (some (1, "u")) 1 imgDB ⟨["a.png"]⟩ =
      (.deleteError, imgDB, ⟨["a.png"]⟩) ∧
    imgDB.listings.find? (fun x => x.id == 1) = some imgListing := by
  constructor
  · rfl
  · rfl

/-! ### Registration (C7) -/

/-- C7: registration fails with a password mismatch first; otherwise a
duplicate email wins over a duplicate username (email checked first); on
success the stored credential is `generate_password_hash(password)` — so
whenever the hash differs from the raw password, the raw password is not
what is stored — and in every case the session is exactly the incoming
one: no auto-login. -/
theorem register_spec (genHash : String → String)
    (username email password confirm_password phone : Option String)
    (newId : Nat) (db : DB) (sess : Session) :
    (password ≠ confirm_password →
      register genHash username email password confirm_password phone newId db sess =
        (.mismatch, db, sess)) ∧
    (password = confirm_password →
      (∃ u ∈ db.users, some u.email = email) →
      register genHash username email password confirm_password phone newId db sess =
        (.emailConflict, db, sess)) ∧
    (password = confirm_password →
      (∀ u ∈ db.users, some u.email ≠ email) →
      (∃ u ∈ db.users, some u.username = username) →
      register genHash username email password confirm_password phone newId db sess =
        (.usernameConflict, db, sess)) ∧
    (∀ un em pw, username = some un → email = some em → password = some pw →
      confirm_password = some pw →
      (∀ u ∈ db.users, u.email ≠ em) →
      (∀ u ∈ db.users, u.username ≠ un) →
      register genHash username email password confirm_password phone newId db sess =
        (.registered ⟨newId, un, em, genHash pw, phone⟩,
          ⟨db.users ++ [⟨newId, un, em, genHash pw, phone⟩], db.listings⟩, sess) ∧
      (genHash pw ≠ pw → (⟨newId, un, em, genHash pw, phone⟩ : User).password ≠ pw)) := by
  refine ⟨?_, ?_, ?_, ?_⟩
  · intro h
    simp [register, h]
  · rintro h ⟨u, hu, he⟩
    have hf : (db.users.find? (fun u => some u.email == email)).isSome = true := by
      rw [List.find?_isSome]
      exact ⟨u, hu, by simp [he]⟩
    simp [register, h, hf]
  · rintro h hne ⟨u, hu, hun⟩
    have hfe : db.users.find? (fun u => some u.email == email) = none := by
      rw [List.find?_eq_none]
      intro x hx
      simp [hne x hx]
    have hfu : (db.users.find? (fun u => some u.username == username)).isSome = true := by
      rw [List.find?_isSome]
      exact ⟨u, hu, by simp [hun]⟩
    simp [register, h, hfe, hfu]
  · intro un em pw h1 h2 h3 h4 hne hnu
    subst h1; subst h2; subst h3; subst h4
    have hfe : db.users.find? (fun u => some u.email == some em) = none := by
      rw [List.find?_eq_none]
      intro x hx
      simp [hne x hx]
    have hfu : db.users.find? (fun u => some u.username == some un) = none := by
      rw [List.find?_eq_none]
      intro x hx
      simp [hnu x hx]
    have hx1 : ¬ ∃ x ∈ db.users, x.email = em := by
      rintro ⟨x, hx, hxe⟩
      exact hne x hx hxe
    have hx2 : ¬ ∃ x ∈ db.users, x.username = un := by
      rintro ⟨x, hx, hxu⟩
      exact hnu x hx hxu
    refine ⟨?_, fun h hcontra => h hcontra⟩
    simp [register, hfe, hfu, hx1, hx2]

/-- C7 (witness): registering "alice"/"a@x.com" over the demo store
succeeds, stores `hashFn "pw1"` (which differs from "pw1"), and leaves the
session `none`. -/
theorem register_spec_witness :
    ((some "pw1" : Option String) = some "pw1") ∧
    (∀ u ∈ demoDB.users, u.email ≠ "a@x.com") ∧
    (∀ u ∈ demoDB.users, u.username ≠ "alice") ∧
    (register hashFn (some "alice") (some "a@x.com") (some "pw1") (some "pw1")
        none 2 demoDB none =
      (.registered ⟨2, "alice", "a@x.com", hashFn "pw1", none⟩,
        ⟨demoDB.users ++ [⟨2, "alice", "a@x.com", hashFn "pw1", none⟩],
          demoDB.listings⟩, none) ∧
    (hashFn "pw1" ≠ "pw1" →
      (⟨2, "alice", "a@x.com", hashFn "pw1", none⟩ : User).password ≠ "pw1")) :=
  ⟨rfl, by decide, by decide,
    (register_spec hashFn (some "alice") (some "a@x.com") (some "pw1")
      (some "pw1") none 2 demoDB none).2.2.2 "alice" "a@x.com" "pw1"
      rfl rfl rfl rfl (by decide) (by decide)⟩

/-! ### Login (C8) -/

/-- C8: a login against an unknown email and a login whose hash
verification fails produce identical observable outcomes — the same
`invalidCredentials` result and the untouched incoming session — so the
two failure causes are indistinguishable to the caller; a successful
login binds the session to the user's id and username. -/
theorem login_invalid_indistinguishable
    (chk : String → String → Bool) (db : DB) (sess : Session) :
    (∀ e p, db.users.find? (fun u => u.email == e) = none →
      login chk e p db sess = (.invalidCredentials, sess)) ∧
    (∀ e p u, db.users.find? (fun u => u.email == e) = some u →
      chk u.password p = false →
      login chk e p db sess = (.invalidCredentials, sess)) ∧
    (∀ e₁ p₁ e₂ p₂,
      (db.users.find? (fun u => u.email == e₁) = none ∨
        ∃ u, db.users.find? (fun u => u.email == e₁) = some u ∧
          chk u.password p₁ = false) →
      (db.users.find? (fun u => u.email == e₂) = none ∨
        ∃ u, db.users.find? (fun u => u.email == e₂) = some u ∧
          chk u.password p₂ = false) →
      login chk e₁ p₁ db sess = login chk e₂ p₂ db sess) ∧
    (∀ e p u, db.users.find? (fun u => u.email == e) = some u →
      chk u.password p = true →
      login chk e p db sess = (.success, some (u.id, u.username))) := by
  have hnone : ∀ e p, db.users.find? (fun u => u.email == e) = none →
      login chk e p db sess = (.invalidCredentials, sess) := by
    intro e p h
    simp [login, h]
  have hfail : ∀ e p u, db.users.find? (fun u => u.email == e) = some u →
      chk u.password p = false →
      login chk e p db sess = (.invalidCredentials, sess) := by
    intro e p u h hc
    simp [login, h, hc]
  refine ⟨hnone, hfail, ?_, ?_⟩
  · rintro e₁ p₁ e₂ p₂ (h1 | ⟨u1, h1, hc1⟩) (h2 | ⟨u2, h2, hc2⟩)
    · rw [hnone e₁ p₁ h1, hnone e₂ p₂ h2]
    · rw [hnone e₁ p₁ h1, hfail e₂ p₂ u2 h2 hc2]
    · rw [hfail e₁ p₁ u1 h1 hc1, hnone e₂ p₂ h2]
    · rw [hfail e₁ p₁ u1 h1 hc1, hfail e₂ p₂ u2 h2 hc2]
  · intro e p u h hc
    simp [login, h, hc]

/-- C8 (witness): the demo user logs in with the right password; the
session becomes the pair of their id and username. -/
theorem login_invalid_indistinguishable_witness :
    demoDB.users.find? (fun u => u.email == "demo@example.com") = some demoUser ∧
    chkFn demoUser.password "password" = true ∧
    login chkFn "demo@example.com" "password" demoDB none =
      (.success, some (demoUser.id, demoUser.username)) :=
  ⟨rfl, rfl,
    (login_invalid_indistinguishable chkFn demoDB none).2.2.2
      "demo@example.com" "password" demoUser rfl rfl⟩

end Rentit
